import Mathlib

/-!
# cloudzip `pkg/remote/s3.go`: the S3 object fetcher

A shallow embedding of `src/pkg/remote/s3.go` and theorems about it.

Conventions of the embedding.

* A Go `string` is a sequence of bytes; it is a `List Nat` (`GoString`) whose
  elements are the byte values. The URI, the bucket and the key are byte
  strings because `net/url` inspects them byte by byte. Strings that the code
  only passes along or compares as a whole (regions, range specs, log keys)
  are Lean strings.
* A Go result pair `(value, err)` is a pair of options; `none` is Go's `nil`.
* External calls (configuration loading, region discovery, `GetObject`, the
  clock) are answered by an explicit environment, and every external call and
  log call a function makes is recorded, in order, in the list of events it
  returns next to its result.
* A function that can dereference a nil pointer has an `Outcome`: it either
  returns its result pair or stops with a nil dereference.
* `url.Parse` of the Go standard library is embedded from the library's source
  (`net/url/url.go`, Go 1.21/1.22); the fields `RawPath` and `RawFragment`,
  which `s3.go` never reads and which never influence the error result, are
  left out.
-/

namespace Remote

/-! ## Go strings -/

/-- A Go string: its bytes, in order. -/
abbrev GoString := List Nat

/-- The bytes (UTF-8) of a string literal. -/
def str (s : String) : GoString :=
  s.data.flatMap fun c => (String.utf8EncodeChar c).map UInt8.toNat

/-- Go `strings.HasPrefix`. -/
def hasPrefix (s p : GoString) : Bool := p.isPrefixOf s

/-- Go `strings.HasSuffix`. -/
def hasSuffix (s p : GoString) : Bool := p.isSuffixOf s

/-- Go `strings.Cut(s, sep)` for a one-byte separator: the text before the
first `sep`, the text after it, and whether `sep` was found. -/
def cut (sep : Nat) : GoString → GoString × GoString × Bool
  | [] => ([], [], false)
  | c :: cs =>
    if c = sep then ([], cs, true)
    else
      let r := cut sep cs
      (c :: r.1, r.2.1, r.2.2)

/-- Go `strings.Index(s, sep)` for a one-byte separator (`none` is `-1`). -/
def indexByte (sep : Nat) : GoString → Option Nat
  | [] => none
  | c :: cs => if c = sep then some 0 else (indexByte sep cs).map (· + 1)

/-- Go `strings.LastIndex(s, sep)` for a one-byte separator (`none` is `-1`). -/
def lastIndexByte (sep : Nat) : GoString → Option Nat
  | [] => none
  | c :: cs =>
    match lastIndexByte sep cs with
    | some i => some (i + 1)
    | none => if c = sep then some 0 else none

/-- Go `strings.Index(s, sub)`: the first position at which `sub` occurs. -/
def indexOf (sub : GoString) : GoString → Option Nat
  | [] => if sub = [] then some 0 else none
  | c :: cs =>
    if sub.isPrefixOf (c :: cs) then some 0
    else (indexOf sub cs).map (· + 1)

/-- Go `strings.Count(s, sep)` for a one-byte separator. -/
def countByte (sep : Nat) (s : GoString) : Nat := s.count sep

/-- Go `strings.Contains(s, sep)` for a one-byte separator. -/
def containsByte (sep : Nat) (s : GoString) : Bool := s.contains sep

/-- Go `strings.ToLower` on ASCII text (the only text it is applied to here:
a scheme accepted by `getScheme` holds ASCII letters, digits, `+`, `-`, `.`). -/
def toLower (s : GoString) : GoString :=
  s.map fun c => if 65 ≤ c ∧ c ≤ 90 then c + 32 else c

/-! ## `net/url` -/

/-- The reasons `url.Parse` fails with (the `Err` field of `*url.Error`). -/
inductive UrlErr where
  /-- Message `net/url: invalid control character in URL` -/
  | invalidControlCharacter
  /-- Message `missing protocol scheme` -/
  | missingProtocolScheme
  /-- Message `first path segment in URL cannot contain colon` -/
  | firstPathSegmentColon
  /-- Message `missing ']' in host` -/
  | missingBracket
  /-- Message `invalid port %q after host` -/
  | invalidPort (port : GoString)
  /-- Message `net/url: invalid userinfo` -/
  | invalidUserinfo
  /-- Go `url.EscapeError`: `invalid URL escape %q` -/
  | escapeError (s : GoString)
  /-- Go `url.InvalidHostError`: `invalid character %q in host name` -/
  | invalidHostError (s : GoString)
  deriving DecidableEq, Repr

/-- Go `url.Userinfo`. -/
structure Userinfo where
  username : GoString
  password : GoString
  passwordSet : Bool
  deriving DecidableEq, Repr

/-- Go `url.URL`, without `RawPath` and `RawFragment`. -/
structure URL where
  Scheme : GoString := []
  Opaque : GoString := []
  User : Option Userinfo := none
  Host : GoString := []
  Path : GoString := []
  OmitHost : Bool := false
  ForceQuery : Bool := false
  RawQuery : GoString := []
  Fragment : GoString := []
  deriving DecidableEq, Repr

/-- The `encoding` modes of `net/url`. -/
inductive Encoding where
  | encodePath
  | encodePathSegment
  | encodeHost
  | encodeZone
  | encodeUserPassword
  | encodeQueryComponent
  | encodeFragment
  deriving DecidableEq, Repr

/-- An ASCII letter or digit. -/
def isAlnum (c : Nat) : Bool :=
  (97 ≤ c && c ≤ 122) || (65 ≤ c && c ≤ 90) || (48 ≤ c && c ≤ 57)

/-- Go `url.shouldEscape`. -/
def shouldEscape (c : Nat) (mode : Encoding) : Bool :=
  if isAlnum c then false
  else if (mode = .encodeHost ∨ mode = .encodeZone) ∧
      -- '!' '$' '&' '\'' '(' ')' '*' '+' ',' ';' '=' ':' '[' ']' '<' '>' '"'
      c ∈ [33, 36, 38, 39, 40, 41, 42, 43, 44, 59, 61, 58, 91, 93, 60, 62, 34] then false
  -- '-' '_' '.' '~'
  else if c ∈ [45, 95, 46, 126] then false
  -- '$' '&' '+' ',' '/' ':' ';' '=' '?' '@'
  else if c ∈ [36, 38, 43, 44, 47, 58, 59, 61, 63, 64] ∧ mode = .encodePath then
    c = 63
  else if c ∈ [36, 38, 43, 44, 47, 58, 59, 61, 63, 64] ∧ mode = .encodePathSegment then
    c = 47 || c = 59 || c = 44 || c = 63
  else if c ∈ [36, 38, 43, 44, 47, 58, 59, 61, 63, 64] ∧ mode = .encodeUserPassword then
    c = 64 || c = 47 || c = 63 || c = 58
  else if c ∈ [36, 38, 43, 44, 47, 58, 59, 61, 63, 64] ∧ mode = .encodeQueryComponent then
    true
  else if c ∈ [36, 38, 43, 44, 47, 58, 59, 61, 63, 64] ∧ mode = .encodeFragment then
    false
  -- '!' '(' ')' '*'
  else if mode = .encodeFragment ∧ c ∈ [33, 40, 41, 42] then false
  else true

/-- Go `url.ishex`. -/
def ishex (c : Nat) : Bool :=
  (48 ≤ c && c ≤ 57) || (97 ≤ c && c ≤ 102) || (65 ≤ c && c ≤ 70)

/-- Go `url.unhex`. -/
def unhex (c : Nat) : Nat :=
  if 48 ≤ c ∧ c ≤ 57 then c - 48
  else if 97 ≤ c ∧ c ≤ 102 then c - 97 + 10
  else if 65 ≤ c ∧ c ≤ 70 then c - 65 + 10
  else 0

/-- The first loop of Go `url.unescape`: checks that every `%` starts a
well-formed escape and that host bytes are legal. `none` when the loop runs
to its end, else the error it returns. -/
def unescapeCheck (mode : Encoding) : GoString → Option UrlErr
  | [] => none
  | c :: rest =>
    if c = 37 then -- '%'
      match rest with
      | a :: b :: rest2 =>
        if !ishex a || !ishex b then some (.escapeError [37, a, b])
        else if mode = .encodeHost ∧ unhex a < 8 ∧ [37, a, b] ≠ [37, 50, 53] then
          some (.escapeError [37, a, b])
        else if mode = .encodeZone ∧ [37, a, b] ≠ [37, 50, 53] ∧
            unhex a * 16 + unhex b ≠ 32 ∧ shouldEscape (unhex a * 16 + unhex b) .encodeHost then
          some (.escapeError [37, a, b])
        else unescapeCheck mode rest2
      | short => some (.escapeError (37 :: short))
    else if c = 43 then unescapeCheck mode rest -- '+'
    else if (mode = .encodeHost ∨ mode = .encodeZone) ∧ c < 128 ∧ shouldEscape c .encodeHost then
      some (.invalidHostError [c])
    else unescapeCheck mode rest

/-- The second loop of Go `url.unescape`: replaces every escape by its byte
(and, in query components, `+` by a space). -/
def unescapeBuild (mode : Encoding) : GoString → GoString
  | [] => []
  | c :: rest =>
    if c = 37 then -- '%'
      match rest with
      | a :: b :: rest2 => (unhex a * 16 + unhex b) :: unescapeBuild mode rest2
      | short => 37 :: short
    else if c = 43 then -- '+'
      (if mode = .encodeQueryComponent then 32 else 43) :: unescapeBuild mode rest
    else c :: unescapeBuild mode rest

/-- Go `url.unescape`. -/
def unescape (s : GoString) (mode : Encoding) : Except UrlErr GoString :=
  match unescapeCheck mode s with
  | some e => .error e
  | none => .ok (unescapeBuild mode s)

/-- Go `url.stringContainsCTLByte`. -/
def stringContainsCTLByte (s : GoString) : Bool :=
  s.any fun b => b < 32 || b = 127

/-- The loop of Go `url.getScheme`; `pre` is `rawURL[:i]`, the second list is
`rawURL[i:]`. The result is `(scheme, path, err)`. -/
def getSchemeLoop (rawURL : GoString) : GoString → GoString → GoString × GoString × Option UrlErr
  | _, [] => ([], rawURL, none)
  | pre, c :: cs =>
    if (97 ≤ c ∧ c ≤ 122) ∨ (65 ≤ c ∧ c ≤ 90) then getSchemeLoop rawURL (pre ++ [c]) cs
    else if (48 ≤ c ∧ c ≤ 57) ∨ c = 43 ∨ c = 45 ∨ c = 46 then
      if pre = [] then ([], rawURL, none) else getSchemeLoop rawURL (pre ++ [c]) cs
    else if c = 58 then
      if pre = [] then ([], [], some .missingProtocolScheme) else (pre, cs, none)
    else ([], rawURL, none)

/-- Go `url.getScheme`. -/
def getScheme (rawURL : GoString) : GoString × GoString × Option UrlErr :=
  getSchemeLoop rawURL [] rawURL

/-- Go `url.validOptionalPort`. -/
def validOptionalPort : GoString → Bool
  | [] => true
  | c :: rest => c = 58 && rest.all fun b => !(b < 48 || b > 57)

/-- Go `url.validUserinfo`. -/
def validUserinfo (s : GoString) : Bool :=
  s.all fun r =>
    (65 ≤ r && r ≤ 90) || (97 ≤ r && r ≤ 122) || (48 ≤ r && r ≤ 57) ||
    -- '-' '.' '_' ':' '~' '!' '$' '&' '\'' '(' ')' '*' '+' ',' ';' '=' '%' '@'
    r ∈ [45, 46, 95, 58, 126, 33, 36, 38, 39, 40, 41, 42, 43, 44, 59, 61, 37, 64]

/-- Go `url.parseHost`. -/
def parseHost (host : GoString) : Except UrlErr GoString :=
  let plain : Except UrlErr GoString := unescape host .encodeHost
  if hasPrefix host [91] then -- '['
    match lastIndexByte 93 host with -- ']'
    | none => .error .missingBracket
    | some i =>
      let colonPort := host.drop (i + 1)
      if !validOptionalPort colonPort then .error (.invalidPort colonPort)
      else
        match indexOf [37, 50, 53] (host.take i) with -- "%25"
        | some zone =>
          match unescape (host.take zone) .encodeHost with
          | .error e => .error e
          | .ok host1 =>
            match unescape ((host.take i).drop zone) .encodeZone with
            | .error e => .error e
            | .ok host2 =>
              match unescape (host.drop i) .encodeHost with
              | .error e => .error e
              | .ok host3 => .ok (host1 ++ host2 ++ host3)
        | none => plain
  else
    match lastIndexByte 58 host with -- ':'
    | some i =>
      let colonPort := host.drop i
      if !validOptionalPort colonPort then .error (.invalidPort colonPort) else plain
    | none => plain

/-- Go `url.parseAuthority`. -/
def parseAuthority (authority : GoString) : Except UrlErr (Option Userinfo × GoString) :=
  match lastIndexByte 64 authority with -- '@'
  | none =>
    match parseHost authority with
    | .error e => .error e
    | .ok host => .ok (none, host)
  | some i =>
    match parseHost (authority.drop (i + 1)) with
    | .error e => .error e
    | .ok host =>
      let userinfo := authority.take i
      if !validUserinfo userinfo then .error .invalidUserinfo
      else if !containsByte 58 userinfo then
        match unescape userinfo .encodeUserPassword with
        | .error e => .error e
        | .ok u => .ok (some ⟨u, [], false⟩, host)
      else
        let c := cut 58 userinfo
        match unescape c.1 .encodeUserPassword with
        | .error e => .error e
        | .ok username =>
          match unescape c.2.1 .encodeUserPassword with
          | .error e => .error e
          | .ok password => .ok (some ⟨username, password, true⟩, host)

/-- Go `(*URL).setPath`, without the `RawPath` hint. -/
def setPath (u : URL) (p : GoString) : Except UrlErr URL :=
  match unescape p .encodePath with
  | .error e => .error e
  | .ok path => .ok { u with Path := path }

/-- Go `url.parse(rawURL, viaRequest)` with `viaRequest = false`, the only way
`url.Parse` calls it. -/
def parse (rawURL : GoString) : Except UrlErr URL :=
  if stringContainsCTLByte rawURL then .error .invalidControlCharacter
  else if rawURL = [42] then .ok { Path := [42] } -- "*"
  else
    match getScheme rawURL with
    | (_, _, some e) => .error e
    | (scheme, rest0, none) =>
      let url : URL := { Scheme := toLower scheme }
      -- '?'
      let force := hasSuffix rest0 [63] && countByte 63 rest0 == 1
      let rest := if force then rest0.take (rest0.length - 1) else (cut 63 rest0).1
      let url := if force then { url with ForceQuery := true }
        else { url with RawQuery := (cut 63 rest0).2.1 }
      if !hasPrefix rest [47] ∧ url.Scheme ≠ [] then .ok { url with Opaque := rest }
      else if !hasPrefix rest [47] ∧ containsByte 58 (cut 47 rest).1 then
        .error .firstPathSegmentColon
      else if (url.Scheme ≠ [] ∨ !hasPrefix rest [47, 47, 47]) ∧ hasPrefix rest [47, 47] then
        let authority0 := rest.drop 2
        let authority := match indexByte 47 authority0 with
          | some i => authority0.take i
          | none => authority0
        let rest := match indexByte 47 authority0 with
          | some i => authority0.drop i
          | none => []
        match parseAuthority authority with
        | .error e => .error e
        | .ok (user, host) => setPath { url with User := user, Host := host } rest
      else if url.Scheme ≠ [] ∧ hasPrefix rest [47] then
        setPath { url with OmitHost := true } rest
      else setPath url rest

/-- The dynamic types of error values that the code tells apart. -/
inductive ErrType where
  /-- Go `*types.NotFound` of the S3 service package -/
  | typesNotFound
  /-- Go `*types.NoSuchKey` of the S3 service package -/
  | typesNoSuchKey
  /-- Go `*manager.bucketNotFound`, the value with which the SDK's
  `manager.GetBucketRegion` reports that a bucket does not exist -/
  | managerBucketNotFound
  /-- any other error type -/
  | other (name : String)
  deriving DecidableEq, Repr

/-- A Go `error` value. -/
inductive GoError where
  /-- a package-level error variable, compared by identity -/
  | sentinel (name : String)
  /-- an error value of the given dynamic type that wraps nothing -/
  | typed (ty : ErrType) (msg : String)
  /-- an error value of the given dynamic type whose `Unwrap` is `inner` -/
  | wrapped (ty : ErrType) (msg : String) (inner : GoError)
  /-- Go `*url.Error` with fields `Op`, `URL` and `Err` -/
  | urlError (op : String) (url : GoString) (err : UrlErr)
  deriving DecidableEq, Repr

/-- Go `url.setFragment` as far as `Parse` needs it: the unescaped fragment. -/
def setFragment (u : URL) (f : GoString) : Except UrlErr URL :=
  match unescape f .encodeFragment with
  | .error e => .error e
  | .ok frag => .ok { u with Fragment := frag }

/-- Go `url.Parse`. -/
def url.Parse (rawURL : GoString) : Option URL × Option GoError :=
  let c := cut 35 rawURL -- '#'
  match parse c.1 with
  | .error e => (none, some (.urlError "parse" c.1 e))
  | .ok url =>
    if c.2.1 = [] then (some url, none)
    else
      match setFragment url c.2.1 with
      | .error e => (none, some (.urlError "parse" rawURL e))
      | .ok url => (some url, none)

/-! ## Errors -/

/-- Go `errors.As(err, &target)` for a target of the dynamic type `ty`: whether
an error of that type occurs in the `Unwrap` chain of `err`. The errors of
`net/url` and the package-level error variables are of none of these types. -/
def errorsAs (ty : ErrType) : GoError → Bool
  | .sentinel _ => false
  | .typed t _ => t = ty
  | .wrapped t _ inner => t = ty || errorsAs ty inner
  | .urlError _ _ _ => false

/-- Modelled from the spec: `ErrDoesNotExist`, the package's distinguished
not-found error, a package-level variable declared outside `s3.go`. -/
def ErrDoesNotExist : GoError := .sentinel "ErrDoesNotExist"

/-- The function `s3IsNotFoundErr` of `s3.go`. -/
def s3IsNotFoundErr (err : Option GoError) : Bool :=
  match err with
  | none => false
  | some e => errorsAs .typesNotFound e || errorsAs .typesNoSuchKey e

/-! ## `s3parseUri` -/

/-- How a call ends: it returns the pair `(value, err)`, or it dereferences a
nil pointer and the goroutine stops. -/
inductive Outcome (α : Type) where
  | returned (value : Option α) (err : Option GoError)
  | nilDereference
  deriving DecidableEq, Repr

/-- The type `s3ParsedUri` of `s3.go`. -/
structure s3ParsedUri where
  Bucket : GoString
  Path : GoString
  deriving DecidableEq, Repr

/-- The function `s3parseUri` of `s3.go`. -/
def s3parseUri (uri : GoString) : Outcome s3ParsedUri :=
  match url.Parse uri with
  | (_, some err) => .returned none (some err)
  | (none, none) => .nilDereference
  | (some parsed, none) =>
    let path := parsed.Path
    let path := if hasPrefix path [47] then path.drop 1 else path -- "/"
    .returned (some { Bucket := parsed.Host, Path := path }) none

/-! ## The collaborators -/

/-- Go `context.Context` values. -/
inductive Context where
  /-- Go `context.Background()` -/
  | background
  /-- any other context -/
  | other (id : Nat)
  deriving DecidableEq, Repr

/-- Go `aws.Config`: the region it is bound to and the rest of its content. -/
structure Config where
  Region : String
  rest : Nat
  deriving DecidableEq, Repr

/-- The values of the interface `S3Getter` of `s3.go`. -/
inductive S3Getter where
  /-- the `*s3.Client` that `s3.NewFromConfig(cfg)` builds -/
  | client (cfg : Config)
  /-- any other implementation of the interface -/
  | double (id : Nat)
  deriving DecidableEq, Repr

/-- Go `s3.NewFromConfig`. -/
def s3.NewFromConfig (cfg : Config) : S3Getter := .client cfg

/-- Go `io.ReadCloser` values. -/
structure ReadCloser where
  id : Nat
  deriving DecidableEq, Repr

/-- Go `s3.GetObjectInput`, the fields that `s3.go` sets. -/
structure GetObjectInput where
  Bucket : Option GoString
  Key : Option GoString
  Range : Option String
  deriving DecidableEq, Repr

/-- Go `s3.GetObjectOutput`, the field that `s3.go` reads. -/
structure GetObjectOutput where
  Body : Option ReadCloser
  deriving DecidableEq, Repr

/-- Go `*slog.Logger` values. -/
inductive Logger where
  /-- Modelled from the spec: the logger `DummyLogger()` returns, a discard
  logger; `DummyLogger` is declared outside `s3.go`. -/
  | dummy
  /-- any other logger -/
  | sink (id : Nat)
  deriving DecidableEq, Repr

/-- Modelled from the spec: `DummyLogger`, declared outside `s3.go`; the
default logger of a fetcher, a no-op logger. -/
def DummyLogger : Logger := .dummy

/-- The severities of `log/slog` that `s3.go` logs at. -/
inductive Level where
  | debug
  | warn
  | error
  deriving DecidableEq, Repr

/-- The values that `s3.go` passes as log attributes. -/
inductive LogValue where
  /-- a string that is a `*string` converted with `aws.ToString`, or a literal -/
  | text (s : String)
  /-- a byte string -/
  | bytes (s : GoString)
  /-- an `int64` -/
  | int (n : Int)
  /-- an error value -/
  | err (e : GoError)
  /-- Go `nil` -/
  | nil
  deriving DecidableEq, Repr

/-- The external calls and log calls, as they are recorded. -/
inductive Event where
  /-- The call `config.LoadDefaultConfig(ctx, config.WithRegion(region))` -/
  | loadDefaultConfig (ctx : Context) (region : String)
  /-- The call `s3.NewFromConfig(cfg)` -/
  | newFromConfig (cfg : Config)
  /-- The call `manager.GetBucketRegion(ctx, svc, bucket)` -/
  | getBucketRegion (ctx : Context) (svc : S3Getter) (bucket : GoString)
  /-- The call `client.GetObject(ctx, input)` -/
  | getObject (client : S3Getter) (ctx : Context) (input : GetObjectInput)
  /-- a call of `logger.DebugContext`, `WarnContext` or `ErrorContext` with
  the message and the attributes given as key and value -/
  | log (logger : Logger) (level : Level) (ctx : Context) (msg : String)
      (attrs : List (String × LogValue))
  deriving DecidableEq, Repr

/-- The answers of the AWS SDK to the calls `s3getServiceForBucket` makes. -/
structure Aws where
  /-- The call `config.LoadDefaultConfig(ctx, config.WithRegion(region))` -/
  LoadDefaultConfig : Context → String → Config × Option GoError
  /-- The call `manager.GetBucketRegion(ctx, svc, bucket)` -/
  GetBucketRegion : Context → S3Getter → GoString → String × Option GoError

/-- What one call of `Fetch` meets: the answer of the client and the two
readings of the monotonic clock, in nanoseconds. -/
structure World where
  /-- The call `client.GetObject(ctx, input)` -/
  GetObject : S3Getter → Context → GetObjectInput → Option GetObjectOutput × Option GoError
  /-- the reading of `time.Now()` in the first line of `Fetch` -/
  startNs : Int
  /-- the reading of the clock in `time.Since(start)` -/
  endNs : Int

/-! ## `s3getServiceForBucket` -/

/-- The constant `defaultRegion` of `s3getServiceForBucket`. -/
def defaultRegion : String := "us-east-1"

/-- The function `s3getServiceForBucket` of `s3.go`: the pair it returns and the external
calls it makes. -/
def s3getServiceForBucket (aws : Aws) (ctx : Context) (bucket : GoString) :
    (Option S3Getter × Option GoError) × List Event :=
  let ev1 := [Event.loadDefaultConfig ctx defaultRegion]
  match aws.LoadDefaultConfig ctx defaultRegion with
  | (_, some err) => ((none, some err), ev1)
  | (cfg, none) =>
    let svc := s3.NewFromConfig cfg
    let ev2 := ev1 ++ [Event.newFromConfig cfg, Event.getBucketRegion ctx svc bucket]
    match aws.GetBucketRegion ctx svc bucket with
    | (_, some err) =>
      if s3IsNotFoundErr (some err) then ((none, some ErrDoesNotExist), ev2)
      else ((none, some err), ev2)
    | (region, none) =>
      if region ≠ defaultRegion then
        let ev3 := ev2 ++ [Event.loadDefaultConfig ctx region]
        match aws.LoadDefaultConfig ctx region with
        | (_, some err) => ((none, some err), ev3)
        | (cfg, none) => ((some (s3.NewFromConfig cfg), none), ev3 ++ [Event.newFromConfig cfg])
      else ((some svc, none), ev2)

/-! ## The fetcher -/

/-- The type `S3ObjectFetcher` of `s3.go`. The field `client` holds an interface value,
which may be nil; the logger is `DummyLogger()` or a logger handed to
`setLogger`. -/
structure S3ObjectFetcher where
  client : Option S3Getter
  bucket : GoString
  path : GoString
  logger : Logger
  deriving DecidableEq, Repr

/-- The function `NewS3ObjectFetcher` of `s3.go`: how the call ends and the external calls
it makes. -/
def NewS3ObjectFetcher (aws : Aws) (uri : GoString) : Outcome S3ObjectFetcher × List Event :=
  match s3parseUri uri with
  | .nilDereference => (.nilDereference, [])
  | .returned _ (some err) => (.returned none (some err), [])
  | .returned none none => (.nilDereference, [])
  | .returned (some parsed) none =>
    match s3getServiceForBucket aws .background parsed.Bucket with
    | ((_, some err), evs) => (.returned none (some err), evs)
    | ((client, none), evs) =>
      (.returned (some { client := client, bucket := parsed.Bucket, path := parsed.Path,
                         logger := DummyLogger }) none, evs)

/-- The method `(*S3ObjectFetcher).setLogger` of `s3.go`. -/
def S3ObjectFetcher.setLogger (s : S3ObjectFetcher) (logger : Logger) : S3ObjectFetcher :=
  { s with logger := logger }

/-- Go `aws.String`: a pointer to the string. -/
def aws_String (s : GoString) : Option GoString := some s

/-- Go `aws.ToString`: the string pointed to, or the empty string for nil. -/
def aws_ToString (p : Option String) : String := p.getD ""

/-- Go `time.Duration.Milliseconds`: whole milliseconds, rounded toward zero. -/
def Milliseconds (d : Int) : Int := Int.tdiv d 1000000

/-- What a call of `Fetch` leaves behind: how it ends, the calls it made on the
client and on the logger, in order, and the fetcher after the call. -/
structure FetchResult where
  outcome : Outcome ReadCloser
  events : List Event
  self : S3ObjectFetcher
  deriving DecidableEq, Repr

/-- The method `(*S3ObjectFetcher).Fetch` of `s3.go`. The helper `buildRange`, declared
outside `s3.go`, is a parameter. -/
def S3ObjectFetcher.Fetch (buildRange : Option Int → Option Int → Option String)
    (w : World) (s : S3ObjectFetcher) (ctx : Context)
    (startOffset endOffset : Option Int) : FetchResult :=
  let rng := buildRange startOffset endOffset
  match s.client with
  | none => { outcome := .nilDereference, events := [], self := s }
  | some client =>
    let input : GetObjectInput :=
      { Bucket := aws_String s.bucket, Key := aws_String s.path, Range := rng }
    let call := Event.getObject client ctx input
    let tookMs := Milliseconds (w.endNs - w.startNs)
    let rangeString := aws_ToString rng
    let fields : List (String × LogValue) :=
      [("range", .text rangeString), ("bucket", .bytes s.bucket), ("key", .bytes s.path),
       ("took_ms", .int tookMs)]
    match w.GetObject client ctx input with
    | (response, err) =>
      if s3IsNotFoundErr err then
        { outcome := .returned none (some ErrDoesNotExist)
          events := [call, .log s.logger .warn ctx "s3.GetObject"
            (fields ++ [("error", .text "NotFound")])]
          self := s }
      else
        match err with
        | some e =>
          { outcome := .returned none (some e)
            events := [call, .log s.logger .error ctx "s3.GetObject"
              (fields ++ [("error", .err e)])]
            self := s }
        | none =>
          let logged := [call, Event.log s.logger .debug ctx "s3.GetObject"
            (fields ++ [("error", .nil)])]
          match response with
          | none => { outcome := .nilDereference, events := logged, self := s }
          | some r => { outcome := .returned r.Body none, events := logged, self := s }

/-- Whether an event is a `GetObject` request. -/
def Event.isGetObject : Event → Bool
  | .getObject _ _ _ => true
  | _ => false

/-- Whether an event is a log call. -/
def Event.isLog : Event → Bool
  | .log _ _ _ _ _ => true
  | _ => false

/-- Modelled from the spec: `buildRange`, the range builder that `Fetch` calls,
declared outside `s3.go`. With neither offset there is no range; with a start
only the range runs from the start to the end of the object; with both it is
the closed range from start through end. The spec leaves the behaviour for an
end offset without a start to the implementer: `endOnly` is that choice. The
range text is the HTTP byte-range syntax that the `Range` field of a
`GetObject` request takes. -/
def buildRange (endOnly : Int → Option String) : Option Int → Option Int → Option String
  | none, none => none
  | some s, none => some ("bytes=" ++ toString s ++ "-")
  | some s, some e => some ("bytes=" ++ toString s ++ "-" ++ toString e)
  | none, some e => endOnly e

/-! ## Classes of URI text -/

/-- An ASCII letter. -/
def isLetter (c : Nat) : Bool := (97 ≤ c && c ≤ 122) || (65 ≤ c && c ≤ 90)

/-- A byte that may follow the first letter of a scheme: a letter, a digit,
`+`, `-` or `.`. -/
def isSchemeByte (c : Nat) : Bool :=
  isLetter c || (48 ≤ c && c ≤ 57) || c = 43 || c = 45 || c = 46

/-- The text of a scheme: a letter, then scheme bytes. -/
def isSchemeText : GoString → Bool
  | [] => false
  | c :: cs => isLetter c && cs.all isSchemeByte

/-- A byte of a plain host name: a letter, a digit, `-`, `.`, `_` or `~` (the
unreserved characters of RFC 3986). -/
def isHostByte (c : Nat) : Bool :=
  isAlnum c || c = 45 || c = 46 || c = 95 || c = 126

/-- The text of a plain host name: host bytes only. -/
def isHostText (s : GoString) : Bool := s.all isHostByte

/-- A byte that stands for itself in a path: not a control byte, not `?`
(which starts the query), not `#` (which starts the fragment), not `%` (which
starts an escape). -/
def isPathByte (c : Nat) : Bool :=
  !(c < 32 || c = 127) && c != 63 && c != 35 && c != 37

/-- The text of a path without query, fragment, escapes and control bytes. -/
def isPathText (s : GoString) : Bool := s.all isPathByte

/-! ## Concrete inputs -/

/-- A fetcher for the object `k` of the bucket `b`, with a client bound to
`eu-west-1` and a logger of its own. -/
def sampleFetcher : S3ObjectFetcher :=
  { client := some (.client ⟨"eu-west-1", 0⟩), bucket := str "b", path := str "k",
    logger := .sink 1 }

/-- The Go error `context.Canceled`. -/
def contextCanceled : GoError := .sentinel "context.Canceled"

/-- A world in which every `GetObject` is cancelled after 2.5 ms. -/
def worldCanceled : World :=
  { GetObject := fun _ _ _ => (none, some contextCanceled), startNs := 1000, endNs := 2501000 }

/-- A world in which every key is missing: `GetObject` fails with an
operation error that wraps `*types.NoSuchKey`. -/
def worldNoSuchKey : World :=
  { GetObject := fun _ _ _ =>
      (none, some (.wrapped (.other "*smithy.OperationError") "operation error S3: GetObject"
        (.typed .typesNoSuchKey "NoSuchKey")))
    startNs := 0, endNs := 7000000 }

/-- A world in which every `GetObject` succeeds with the stream 42. -/
def worldOk : World :=
  { GetObject := fun _ _ _ => (some ⟨some ⟨42⟩⟩, none), startNs := 0, endNs := 1999999 }

/-- An SDK in which configuration loading succeeds and every bucket is
missing: `manager.GetBucketRegion` answers with its `bucketNotFound` error. -/
def awsBucketMissing : Aws :=
  { LoadDefaultConfig := fun _ region => (⟨region, 0⟩, none)
    GetBucketRegion := fun _ _ _ => ("", some (.typed .managerBucketNotFound "bucket not found")) }

/-- An SDK in which configuration loading succeeds and every bucket lives in
the given region. -/
def awsRegion (region : String) : Aws :=
  { LoadDefaultConfig := fun _ r => (⟨r, 0⟩, none)
    GetBucketRegion := fun _ _ _ => (region, none) }

/-- A range builder that sends no range for an end offset without a start. -/
def noRange : Option Int → Option Int → Option String := buildRange fun _ => none

/-! ## Theorems: `Fetch` -/

/-- C1: whatever pair `(response, err)` the client's `GetObject` answers,
`Fetch` returns `(nil, ErrDoesNotExist)` when the chain of `err` holds a
`types.NotFound` or a `types.NoSuchKey`, `(nil, err)` with the same error when
`err` is any other error, and `(response.Body, nil)` when `err` is nil; exactly
one of the three cases applies. -/
theorem Fetch_returns (buildRange : Option Int → Option Int → Option String)
    (w : World) (s : S3ObjectFetcher) (client : S3Getter) (ctx : Context)
    (startOffset endOffset : Option Int)
    (response : Option GetObjectOutput) (err : Option GoError)
    (hclient : s.client = some client)
    (hcall : w.GetObject client ctx
      { Bucket := some s.bucket, Key := some s.path, Range := buildRange startOffset endOffset }
      = (response, err)) :
    ((∃ e, err = some e ∧ (errorsAs .typesNotFound e = true ∨ errorsAs .typesNoSuchKey e = true)) →
      (s.Fetch buildRange w ctx startOffset endOffset).outcome
        = .returned none (some ErrDoesNotExist)) ∧
    (∀ e, err = some e → ¬ (errorsAs .typesNotFound e = true ∨ errorsAs .typesNoSuchKey e = true) →
      (s.Fetch buildRange w ctx startOffset endOffset).outcome = .returned none (some e)) ∧
    (err = none → ∀ r, response = some r →
      (s.Fetch buildRange w ctx startOffset endOffset).outcome = .returned r.Body none) ∧
    ((∃ e, err = some e ∧ (errorsAs .typesNotFound e = true ∨ errorsAs .typesNoSuchKey e = true)) ∨
      (∃ e, err = some e ∧ ¬ (errorsAs .typesNotFound e = true ∨ errorsAs .typesNoSuchKey e = true)) ∨
      err = none) ∧
    ¬ ((∃ e, err = some e ∧ (errorsAs .typesNotFound e = true ∨ errorsAs .typesNoSuchKey e = true)) ∧
      (∃ e, err = some e ∧ ¬ (errorsAs .typesNotFound e = true ∨ errorsAs .typesNoSuchKey e = true))) ∧
    ¬ ((∃ e, err = some e) ∧ err = none) := by
  have hcall2 : w.GetObject client ctx
      { Bucket := aws_String s.bucket, Key := aws_String s.path,
        Range := buildRange startOffset endOffset } = (response, err) := hcall
  refine ⟨?_, ?_, ?_, ?_, ?_, ?_⟩
  · rintro ⟨e, rfl, he⟩
    have : s3IsNotFoundErr (some e) = true := by
      simpa [s3IsNotFoundErr] using he
    simp [S3ObjectFetcher.Fetch, hclient, hcall2, this]
  · rintro e rfl he
    have : s3IsNotFoundErr (some e) = false := by
      simpa [s3IsNotFoundErr] using he
    simp [S3ObjectFetcher.Fetch, hclient, hcall2, this]
  · rintro rfl r rfl
    simp [S3ObjectFetcher.Fetch, hclient, hcall2, s3IsNotFoundErr]
  · cases err with
    | none => exact Or.inr (Or.inr rfl)
    | some e =>
      by_cases he : errorsAs .typesNotFound e = true ∨ errorsAs .typesNoSuchKey e = true
      · exact Or.inl ⟨e, rfl, he⟩
      · exact Or.inr (Or.inl ⟨e, rfl, he⟩)
  · rintro ⟨⟨e, rfl, he⟩, ⟨e2, h2, hne⟩⟩
    cases h2
    exact hne he
  · rintro ⟨⟨e, rfl⟩, h⟩
    cases h

/-- An instance: a cancelled read returns the cancellation error. -/
theorem Fetch_returns_witness :
    (sampleFetcher.Fetch noRange worldCanceled .background (some 10) none).outcome
      = .returned none (some contextCanceled) :=
  (Fetch_returns noRange worldCanceled sampleFetcher (.client ⟨"eu-west-1", 0⟩) .background
    (some 10) none none (some contextCanceled) rfl rfl).2.1 contextCanceled rfl (by decide)

/-- C8: a call of `Fetch` on a fetcher with a client makes exactly one log
call, the last thing it does: at debug severity with error nil when the read
succeeds, at warning severity with error "NotFound" when the read fails with a
not-found error, at error severity with the error otherwise. The record
carries the range text (empty without a range), the fetcher's bucket and path
as bucket and key, and the elapsed milliseconds. -/
theorem Fetch_logs_once (buildRange : Option Int → Option Int → Option String)
    (w : World) (s : S3ObjectFetcher) (client : S3Getter) (ctx : Context)
    (startOffset endOffset : Option Int)
    (response : Option GetObjectOutput) (err : Option GoError)
    (hclient : s.client = some client)
    (hcall : w.GetObject client ctx
      { Bucket := some s.bucket, Key := some s.path, Range := buildRange startOffset endOffset }
      = (response, err)) :
    ∃ level errValue,
      (s.Fetch buildRange w ctx startOffset endOffset).events.filter Event.isLog
        = [.log s.logger level ctx "s3.GetObject"
            [("range", .text ((buildRange startOffset endOffset).getD "")),
             ("bucket", .bytes s.bucket), ("key", .bytes s.path),
             ("took_ms", .int (Milliseconds (w.endNs - w.startNs))),
             ("error", errValue)]] ∧
      (s.Fetch buildRange w ctx startOffset endOffset).events.getLast?
        = some (.log s.logger level ctx "s3.GetObject"
            [("range", .text ((buildRange startOffset endOffset).getD "")),
             ("bucket", .bytes s.bucket), ("key", .bytes s.path),
             ("took_ms", .int (Milliseconds (w.endNs - w.startNs))),
             ("error", errValue)]) ∧
      (err = none → level = .debug ∧ errValue = .nil) ∧
      (∀ e, err = some e →
        (errorsAs .typesNotFound e = true ∨ errorsAs .typesNoSuchKey e = true) →
        level = .warn ∧ errValue = .text "NotFound") ∧
      (∀ e, err = some e →
        ¬ (errorsAs .typesNotFound e = true ∨ errorsAs .typesNoSuchKey e = true) →
        level = .error ∧ errValue = .err e) := by
  have hcall2 : w.GetObject client ctx
      { Bucket := aws_String s.bucket, Key := aws_String s.path,
        Range := buildRange startOffset endOffset } = (response, err) := hcall
  cases err with
  | none =>
    refine ⟨.debug, .nil, ?_, ?_, ?_, ?_, ?_⟩
    · cases response <;>
        simp [S3ObjectFetcher.Fetch, hclient, hcall2, s3IsNotFoundErr, Event.isLog, aws_ToString]
    · cases response <;>
        simp [S3ObjectFetcher.Fetch, hclient, hcall2, s3IsNotFoundErr, aws_ToString]
    · intro _; exact ⟨rfl, rfl⟩
    · intro e he; cases he
    · intro e he; cases he
  | some e =>
    by_cases he : errorsAs .typesNotFound e = true ∨ errorsAs .typesNoSuchKey e = true
    · have hnf : s3IsNotFoundErr (some e) = true := by simpa [s3IsNotFoundErr] using he
      refine ⟨.warn, .text "NotFound", ?_, ?_, ?_, ?_, ?_⟩
      · simp [S3ObjectFetcher.Fetch, hclient, hcall2, hnf, Event.isLog, aws_ToString]
      · simp [S3ObjectFetcher.Fetch, hclient, hcall2, hnf, aws_ToString]
      · intro h; cases h
      · intro _ _ _; exact ⟨rfl, rfl⟩
      · intro e2 h2 hne; cases h2; exact absurd he hne
    · have hnf : s3IsNotFoundErr (some e) = false := by simpa [s3IsNotFoundErr] using he
      refine ⟨.error, .err e, ?_, ?_, ?_, ?_, ?_⟩
      · simp [S3ObjectFetcher.Fetch, hclient, hcall2, hnf, Event.isLog, aws_ToString]
      · simp [S3ObjectFetcher.Fetch, hclient, hcall2, hnf, aws_ToString]
      · intro h; cases h
      · intro e2 h2 h3; cases h2; exact absurd h3 he
      · intro e2 h2 _; cases h2; exact ⟨rfl, rfl⟩

/-- An instance: a read of a missing key logs one warning
with error "NotFound". -/
theorem Fetch_logs_once_witness :
    ∃ level errValue,
      (sampleFetcher.Fetch noRange worldNoSuchKey (.other 3) (some 10) (some 20)).events.filter
          Event.isLog
        = [.log (.sink 1) level (.other 3) "s3.GetObject"
            [("range", .text "bytes=10-20"), ("bucket", .bytes (str "b")),
             ("key", .bytes (str "k")), ("took_ms", .int 7), ("error", errValue)]] ∧
      level = .warn ∧ errValue = .text "NotFound" := by
  obtain ⟨level, errValue, h1, _, _, h4, _⟩ :=
    Fetch_logs_once noRange worldNoSuchKey sampleFetcher (.client ⟨"eu-west-1", 0⟩) (.other 3)
      (some 10) (some 20) none _ rfl rfl
  exact ⟨level, errValue, h1, h4 _ rfl (by decide)⟩

/-- The requests of a call of `Fetch` on a fetcher with a client, and the
fetcher after the call. -/
theorem Fetch_requests (buildRange : Option Int → Option Int → Option String)
    (w : World) (s : S3ObjectFetcher) (client : S3Getter) (ctx : Context)
    (a b : Option Int) (hclient : s.client = some client) :
    (s.Fetch buildRange w ctx a b).events.filter Event.isGetObject
      = [.getObject client ctx
          { Bucket := some s.bucket, Key := some s.path, Range := buildRange a b }] ∧
    (s.Fetch buildRange w ctx a b).self = s := by
  rcases hres : w.GetObject client ctx
    { Bucket := some s.bucket, Key := some s.path, Range := buildRange a b }
    with ⟨response, err⟩
  by_cases hnf : s3IsNotFoundErr err = true
  · simp [S3ObjectFetcher.Fetch, hclient, aws_String, hres, hnf, Event.isGetObject]
  · cases err with
    | some e => simp [S3ObjectFetcher.Fetch, hclient, aws_String, hres, hnf, Event.isGetObject]
    | none =>
      cases response <;>
        simp [S3ObjectFetcher.Fetch, hclient, aws_String, hres, hnf, Event.isGetObject]

/-- C9: a call of `Fetch` on a fetcher with a client sends exactly one
`GetObject` request, to that client, for the fetcher's bucket and path and the
range built from the two offsets, whatever the answer; the fetcher is the same
after the call, so the next call sends the same bucket and key to the same
client. -/
theorem Fetch_one_request (buildRange : Option Int → Option Int → Option String)
    (w : World) (s : S3ObjectFetcher) (client : S3Getter) (ctx : Context)
    (startOffset endOffset : Option Int) (hclient : s.client = some client) :
    (s.Fetch buildRange w ctx startOffset endOffset).events.filter Event.isGetObject
      = [.getObject client ctx
          { Bucket := some s.bucket, Key := some s.path,
            Range := buildRange startOffset endOffset }] ∧
    (s.Fetch buildRange w ctx startOffset endOffset).self = s ∧
    ∀ (w2 : World) (ctx2 : Context) (start2 end2 : Option Int),
      ((s.Fetch buildRange w ctx startOffset endOffset).self.Fetch buildRange w2 ctx2
          start2 end2).events.filter Event.isGetObject
        = [.getObject client ctx2
            { Bucket := some s.bucket, Key := some s.path, Range := buildRange start2 end2 }] := by
  have key := Fetch_requests buildRange w s client ctx startOffset endOffset hclient
  refine ⟨key.1, key.2, ?_⟩
  intro w2 ctx2 start2 end2
  rw [key.2]
  exact (Fetch_requests buildRange w2 s client ctx2 start2 end2 hclient).1

/-- An instance: after a cancelled read, the next read
sends the same bucket and key to the same client. -/
theorem Fetch_one_request_witness :
    ((sampleFetcher.Fetch noRange worldCanceled .background none none).self.Fetch noRange
        worldOk (.other 1) (some 5) none).events.filter Event.isGetObject
      = [.getObject (.client ⟨"eu-west-1", 0⟩) (.other 1)
          { Bucket := some (str "b"), Key := some (str "k"), Range := some "bytes=5-" }] :=
  (Fetch_one_request noRange worldCanceled sampleFetcher (.client ⟨"eu-west-1", 0⟩) .background
    none none rfl).2.2 worldOk (.other 1) (some 5) none

/-! ## Theorems: `s3getServiceForBucket` and `NewS3ObjectFetcher` -/

/-- Go `url.Parse` returns a URL and no error, or no URL and an error. -/
theorem url_Parse_closed (rawURL : GoString) :
    (∃ u, url.Parse rawURL = (some u, none)) ∨ (∃ e, url.Parse rawURL = (none, some e)) := by
  cases hp : parse (cut 35 rawURL).1 with
  | error e =>
    exact Or.inr ⟨.urlError "parse" (cut 35 rawURL).1 e, by simp [url.Parse, hp]⟩
  | ok u =>
    by_cases hf : (cut 35 rawURL).2.1 = []
    · exact Or.inl ⟨u, by simp [url.Parse, hp, hf]⟩
    · cases hsf : setFragment u (cut 35 rawURL).2.1 with
      | error e => exact Or.inr ⟨.urlError "parse" rawURL e, by simp [url.Parse, hp, hf, hsf]⟩
      | ok u2 => exact Or.inl ⟨u2, by simp [url.Parse, hp, hf, hsf]⟩

/-- What `s3parseUri` returns, in terms of what `url.Parse` returns. -/
theorem s3parseUri_of_Parse (uri : GoString) :
    (∀ u, url.Parse uri = (some u, none) →
      s3parseUri uri
        = .returned
            (some ⟨u.Host, if hasPrefix u.Path [47] then u.Path.drop 1 else u.Path⟩) none) ∧
    (∀ e, url.Parse uri = (none, some e) → s3parseUri uri = .returned none (some e)) := by
  constructor
  · intro u h
    simp [s3parseUri, h]
  · intro e h
    simp [s3parseUri, h]

/-- The function `s3parseUri` returns a location and no error, or no location and an error. -/
theorem s3parseUri_closed (uri : GoString) :
    (∃ p, s3parseUri uri = .returned (some p) none) ∨
    (∃ e, s3parseUri uri = .returned none (some e)) := by
  rcases url_Parse_closed uri with ⟨u, h⟩ | ⟨e, h⟩
  · exact Or.inl ⟨_, (s3parseUri_of_Parse uri).1 u h⟩
  · exact Or.inr ⟨e, (s3parseUri_of_Parse uri).2 e h⟩

/-- The function `s3getServiceForBucket` returns a client and no error, or no client and an
error. -/
theorem s3getServiceForBucket_closed (aws : Aws) (ctx : Context) (bucket : GoString) :
    (∃ c, (s3getServiceForBucket aws ctx bucket).1 = (some c, none)) ∨
    (∃ e, (s3getServiceForBucket aws ctx bucket).1 = (none, some e)) := by
  rcases h0 : aws.LoadDefaultConfig ctx defaultRegion with ⟨cfg0, _ | e0⟩
  · rcases h1 : aws.GetBucketRegion ctx (s3.NewFromConfig cfg0) bucket with ⟨r, _ | e1⟩
    · by_cases hr : r = defaultRegion
      · exact Or.inl ⟨s3.NewFromConfig cfg0, by simp [s3getServiceForBucket, h0, h1, hr]⟩
      · rcases h2 : aws.LoadDefaultConfig ctx r with ⟨cfg, _ | e2⟩
        · exact Or.inl ⟨s3.NewFromConfig cfg, by simp [s3getServiceForBucket, h0, h1, hr, h2]⟩
        · exact Or.inr ⟨e2, by simp [s3getServiceForBucket, h0, h1, hr, h2]⟩
    · by_cases hnf : s3IsNotFoundErr (some e1) = true
      · exact Or.inr ⟨ErrDoesNotExist, by simp [s3getServiceForBucket, h0, h1, hnf]⟩
      · exact Or.inr ⟨e1, by simp [s3getServiceForBucket, h0, h1, hnf]⟩
  · exact Or.inr ⟨e0, by simp [s3getServiceForBucket, h0]⟩

/-- When the error of region discovery holds a `types.NotFound` or a
`types.NoSuchKey` in its chain, `s3getServiceForBucket` returns
`ErrDoesNotExist` and no client. -/
theorem s3getServiceForBucket_notFound_chain (aws : Aws) (ctx : Context) (bucket : GoString)
    (cfg0 : Config) (r : String) (e : GoError)
    (h0 : aws.LoadDefaultConfig ctx "us-east-1" = (cfg0, none))
    (h1 : aws.GetBucketRegion ctx (s3.NewFromConfig cfg0) bucket = (r, some e))
    (he : errorsAs .typesNotFound e = true ∨ errorsAs .typesNoSuchKey e = true) :
    (s3getServiceForBucket aws ctx bucket).1 = (none, some ErrDoesNotExist) := by
  have hnf : s3IsNotFoundErr (some e) = true := by simpa [s3IsNotFoundErr] using he
  simp [s3getServiceForBucket, defaultRegion, h0, h1, hnf]

/-- C3, at a bucket that does not exist: region discovery reports it with the
SDK's `bucketNotFound` error, which is neither a `types.NotFound` nor a
`types.NoSuchKey`; `s3getServiceForBucket` returns that error, not
`ErrDoesNotExist`, and so does `NewS3ObjectFetcher`. -/
theorem bucket_not_found_is_generic_error :
    (s3getServiceForBucket awsBucketMissing .background (str "missing")).1
      = (none, some (.typed .managerBucketNotFound "bucket not found")) ∧
    (NewS3ObjectFetcher awsBucketMissing (str "s3://missing/key")).1
      = .returned none (some (.typed .managerBucketNotFound "bucket not found")) ∧
    GoError.typed .managerBucketNotFound "bucket not found" ≠ ErrDoesNotExist := by
  refine ⟨by decide, by decide, by decide⟩

/-- C4: when region discovery for the bucket succeeds with the region `r`:
if `r` is not "us-east-1", a configuration is loaded for `r` and the client
returned is the one built from it (or the error of that load is returned); if
`r` is "us-east-1", the client returned is the one already built for the
discovery call, and the calls made are one configuration load, one client
construction and the discovery call, nothing more. -/
theorem s3getServiceForBucket_region (aws : Aws) (ctx : Context) (bucket : GoString)
    (cfg0 : Config) (r : String)
    (h0 : aws.LoadDefaultConfig ctx "us-east-1" = (cfg0, none))
    (h1 : aws.GetBucketRegion ctx (s3.NewFromConfig cfg0) bucket = (r, none)) :
    (r ≠ "us-east-1" → ∀ cfg, aws.LoadDefaultConfig ctx r = (cfg, none) →
      s3getServiceForBucket aws ctx bucket
        = ((some (s3.NewFromConfig cfg), none),
           [.loadDefaultConfig ctx "us-east-1", .newFromConfig cfg0,
            .getBucketRegion ctx (s3.NewFromConfig cfg0) bucket,
            .loadDefaultConfig ctx r, .newFromConfig cfg])) ∧
    (r ≠ "us-east-1" → ∀ cfg e, aws.LoadDefaultConfig ctx r = (cfg, some e) →
      s3getServiceForBucket aws ctx bucket
        = ((none, some e),
           [.loadDefaultConfig ctx "us-east-1", .newFromConfig cfg0,
            .getBucketRegion ctx (s3.NewFromConfig cfg0) bucket,
            .loadDefaultConfig ctx r])) ∧
    (r = "us-east-1" →
      s3getServiceForBucket aws ctx bucket
        = ((some (s3.NewFromConfig cfg0), none),
           [.loadDefaultConfig ctx "us-east-1", .newFromConfig cfg0,
            .getBucketRegion ctx (s3.NewFromConfig cfg0) bucket])) := by
  refine ⟨?_, ?_, ?_⟩
  · intro hr cfg h2
    simp [s3getServiceForBucket, defaultRegion, h0, h1, hr, h2]
  · intro hr cfg e h2
    simp [s3getServiceForBucket, defaultRegion, h0, h1, hr, h2]
  · intro hr
    subst hr
    simp [s3getServiceForBucket, defaultRegion, h0, h1]

/-- An instance: a bucket in `eu-west-1` gets a
client built from the configuration loaded for `eu-west-1`. -/
theorem s3getServiceForBucket_region_witness :
    s3getServiceForBucket (awsRegion "eu-west-1") .background (str "b")
      = ((some (s3.NewFromConfig ⟨"eu-west-1", 0⟩), none),
         [.loadDefaultConfig .background "us-east-1", .newFromConfig ⟨"us-east-1", 0⟩,
          .getBucketRegion .background (s3.NewFromConfig ⟨"us-east-1", 0⟩) (str "b"),
          .loadDefaultConfig .background "eu-west-1", .newFromConfig ⟨"eu-west-1", 0⟩]) :=
  (s3getServiceForBucket_region (awsRegion "eu-west-1") .background (str "b")
    ⟨"us-east-1", 0⟩ "eu-west-1" rfl rfl).1 (by decide) ⟨"eu-west-1", 0⟩ rfl

/-- C5: `NewS3ObjectFetcher` returns a fetcher and no error, or no fetcher and
an error. When parsing fails it returns the parse error and makes no external
call; when endpoint resolution fails it returns that error; otherwise the
fetcher holds the parsed bucket and path, the resolved client and the dummy
logger. -/
theorem NewS3ObjectFetcher_fails_closed (aws : Aws) (uri : GoString) :
    ((∃ f, (NewS3ObjectFetcher aws uri).1 = .returned (some f) none) ∨
      (∃ e, (NewS3ObjectFetcher aws uri).1 = .returned none (some e))) ∧
    (∀ e, s3parseUri uri = .returned none (some e) →
      NewS3ObjectFetcher aws uri = (.returned none (some e), [])) ∧
    (∀ p e evs, s3parseUri uri = .returned (some p) none →
      s3getServiceForBucket aws .background p.Bucket = ((none, some e), evs) →
      NewS3ObjectFetcher aws uri = (.returned none (some e), evs)) ∧
    (∀ p c evs, s3parseUri uri = .returned (some p) none →
      s3getServiceForBucket aws .background p.Bucket = ((some c, none), evs) →
      NewS3ObjectFetcher aws uri
        = (.returned (some { client := some c, bucket := p.Bucket, path := p.Path,
                             logger := DummyLogger }) none, evs)) := by
  have hB : ∀ e, s3parseUri uri = .returned none (some e) →
      NewS3ObjectFetcher aws uri = (.returned none (some e), []) := by
    intro e h
    simp [NewS3ObjectFetcher, h]
  have hC : ∀ p e evs, s3parseUri uri = .returned (some p) none →
      s3getServiceForBucket aws .background p.Bucket = ((none, some e), evs) →
      NewS3ObjectFetcher aws uri = (.returned none (some e), evs) := by
    intro p e evs h1 h2
    simp [NewS3ObjectFetcher, h1, h2]
  have hD : ∀ p c evs, s3parseUri uri = .returned (some p) none →
      s3getServiceForBucket aws .background p.Bucket = ((some c, none), evs) →
      NewS3ObjectFetcher aws uri
        = (.returned (some { client := some c, bucket := p.Bucket, path := p.Path,
                             logger := DummyLogger }) none, evs) := by
    intro p c evs h1 h2
    simp [NewS3ObjectFetcher, h1, h2]
  refine ⟨?_, hB, hC, hD⟩
  rcases s3parseUri_closed uri with ⟨p, hp⟩ | ⟨e, he⟩
  · rcases hs : s3getServiceForBucket aws .background p.Bucket with ⟨res, evs⟩
    rcases s3getServiceForBucket_closed aws .background p.Bucket with ⟨c, hc⟩ | ⟨e, hc⟩
    · rw [hs] at hc
      simp only at hc
      subst hc
      exact Or.inl ⟨_, by rw [hD p c evs hp hs]⟩
    · rw [hs] at hc
      simp only at hc
      subst hc
      exact Or.inr ⟨e, by rw [hC p e evs hp hs]⟩
  · exact Or.inr ⟨e, by rw [hB e he]⟩

/-! ## Theorems: `url.Parse` and `s3parseUri` -/

/-- Cutting at a byte that does not occur leaves the text whole. -/
theorem cut_of_not_mem (sep : Nat) (s : GoString) (h : sep ∉ s) :
    cut sep s = (s, [], false) := by
  induction s with
  | nil => rfl
  | cons c cs ih =>
    have hc : c ≠ sep := fun hc => h (by simp [hc])
    have hcs : sep ∉ cs := fun hm => h (List.mem_cons_of_mem _ hm)
    simp [cut, hc, ih hcs]

/-- The last index of a byte that does not occur is `-1`. -/
theorem lastIndexByte_of_not_mem (sep : Nat) (s : GoString) (h : sep ∉ s) :
    lastIndexByte sep s = none := by
  induction s with
  | nil => rfl
  | cons c cs ih =>
    have hc : c ≠ sep := fun hc => h (by simp [hc])
    have hcs : sep ∉ cs := fun hm => h (List.mem_cons_of_mem _ hm)
    simp [lastIndexByte, hc, ih hcs]

/-- The first index of a byte that follows text without it is the length of
that text. -/
theorem indexByte_append (sep : Nat) (s t : GoString) (h : sep ∉ s) :
    indexByte sep (s ++ sep :: t) = some s.length := by
  induction s with
  | nil => simp [indexByte]
  | cons c cs ih =>
    have hc : c ≠ sep := fun hc => h (by simp [hc])
    have hcs : sep ∉ cs := fun hm => h (List.mem_cons_of_mem _ hm)
    simp [indexByte, hc, ih hcs]

/-- The loop of `getScheme` runs over scheme bytes up to the colon. -/
theorem getSchemeLoop_scheme (rawURL : GoString) (cs : GoString) :
    ∀ (pre tail : GoString), pre ≠ [] → cs.all isSchemeByte = true →
      getSchemeLoop rawURL pre (cs ++ 58 :: tail) = (pre ++ cs, tail, none) := by
  induction cs with
  | nil =>
    intro pre tail hpre _
    simp [getSchemeLoop, hpre]
  | cons c cs ih =>
    intro pre tail hpre hall
    simp only [List.all_cons, Bool.and_eq_true] at hall
    obtain ⟨hc, hcs⟩ := hall
    have hnext := ih (pre ++ [c]) tail (by simp) hcs
    simp only [isSchemeByte, isLetter, Bool.or_eq_true, Bool.and_eq_true, decide_eq_true_eq] at hc
    by_cases hl : (97 ≤ c ∧ c ≤ 122) ∨ (65 ≤ c ∧ c ≤ 90)
    · simp [getSchemeLoop, hl, hnext]
    · have hd : (48 ≤ c ∧ c ≤ 57) ∨ c = 43 ∨ c = 45 ∨ c = 46 := by omega
      simp [getSchemeLoop, hl, hd, hpre, hnext]

/-- Go `getScheme` splits a URL that starts with a scheme and a colon. -/
theorem getScheme_scheme (scheme tail : GoString) (hs : isSchemeText scheme = true) :
    getScheme (scheme ++ 58 :: tail) = (scheme, tail, none) := by
  cases scheme with
  | nil => simp [isSchemeText] at hs
  | cons c cs =>
    simp only [isSchemeText, Bool.and_eq_true] at hs
    obtain ⟨hc, hcs⟩ := hs
    have hl : (97 ≤ c ∧ c ≤ 122) ∨ (65 ≤ c ∧ c ≤ 90) := by
      simpa [isLetter] using hc
    have hnext := getSchemeLoop_scheme (c :: (cs ++ 58 :: tail)) cs [c] tail (by simp) hcs
    simp only [List.singleton_append] at hnext
    simp [getScheme, getSchemeLoop, hl, hnext]

/-- A host byte is none of the bytes that structure a URL, and no control
byte. -/
theorem isHostByte_plain (c : Nat) (h : isHostByte c = true) :
    ¬ (c < 32) ∧ c ≠ 127 ∧ c ≠ 35 ∧ c ≠ 37 ∧ c ≠ 47 ∧ c ≠ 63 ∧ c ≠ 64 ∧ c ≠ 58 ∧ c ≠ 91 := by
  simp only [isHostByte, isAlnum, Bool.and_eq_true, Bool.or_eq_true, decide_eq_true_eq] at h
  omega

/-- Go `shouldEscape` does not want a host byte escaped in a host name. -/
theorem shouldEscape_hostByte (c : Nat) (h : isHostByte c = true) :
    shouldEscape c .encodeHost = false := by
  simp only [isHostByte, Bool.or_eq_true, decide_eq_true_eq] at h
  rcases h with (((h | h) | h) | h) | h
  · simp [shouldEscape, h]
  · subst h; decide
  · subst h; decide
  · subst h; decide
  · subst h; decide

/-- The first loop of `unescape` accepts text without `%` whose bytes are
legal where the mode is a host mode. -/
theorem unescapeCheck_plain (mode : Encoding) (s : GoString) (h37 : 37 ∉ s)
    (hhost : (mode = .encodeHost ∨ mode = .encodeZone) →
      ∀ c ∈ s, c < 128 → shouldEscape c .encodeHost = false) :
    unescapeCheck mode s = none := by
  induction s with
  | nil => rfl
  | cons c cs ih =>
    have hc : c ≠ 37 := fun hc => h37 (by simp [hc])
    have hcs : 37 ∉ cs := fun hm => h37 (List.mem_cons_of_mem _ hm)
    have ih2 := ih hcs (fun hm d hd => hhost hm d (List.mem_cons_of_mem _ hd))
    rw [unescapeCheck.eq_def]
    by_cases h43 : c = 43
    · subst h43
      simp [ih2]
    · by_cases hcond : (mode = .encodeHost ∨ mode = .encodeZone) ∧ c < 128 ∧
          shouldEscape c .encodeHost = true
      · exfalso
        have := hhost hcond.1 c (by simp) hcond.2.1
        rw [this] at hcond
        exact Bool.noConfusion hcond.2.2
      · simp only [hc, h43, if_false, hcond, ih2]

/-- The second loop of `unescape` copies text without `%`, outside query
components. -/
theorem unescapeBuild_plain (mode : Encoding) (s : GoString) (h37 : 37 ∉ s)
    (hmode : mode ≠ .encodeQueryComponent) : unescapeBuild mode s = s := by
  induction s with
  | nil => rfl
  | cons c cs ih =>
    have hc : c ≠ 37 := fun hc => h37 (by simp [hc])
    have hcs : 37 ∉ cs := fun hm => h37 (List.mem_cons_of_mem _ hm)
    rw [unescapeBuild.eq_def]
    by_cases h43 : c = 43
    · subst h43
      simp [hmode, ih hcs]
    · simp [hc, h43, ih hcs]

/-- Go `parseHost` returns a plain host name as it is. -/
theorem parseHost_plain (B : GoString) (hB : isHostText B = true) :
    parseHost B = .ok B := by
  have hbyte : ∀ c ∈ B, isHostByte c = true := fun c hc => List.all_eq_true.1 hB c hc
  have h91 : 91 ∉ B := fun hm => (isHostByte_plain 91 (hbyte 91 hm)).2.2.2.2.2.2.2.2 rfl
  have h58 : 58 ∉ B := fun hm => (isHostByte_plain 58 (hbyte 58 hm)).2.2.2.2.2.2.2.1 rfl
  have h37 : 37 ∉ B := fun hm => (isHostByte_plain 37 (hbyte 37 hm)).2.2.2.1 rfl
  have hpre : hasPrefix B [91] = false := by
    cases B with
    | nil => rfl
    | cons c cs =>
      have : 91 ≠ c := fun hc => h91 (by simp [hc])
      simp [hasPrefix, List.isPrefixOf, this]
  have hesc : ∀ c ∈ B, c < 128 → shouldEscape c .encodeHost = false :=
    fun c hc _ => shouldEscape_hostByte c (hbyte c hc)
  have hun : unescape B .encodeHost = .ok B := by
    simp [unescape, unescapeCheck_plain .encodeHost B h37 (fun _ => hesc),
      unescapeBuild_plain .encodeHost B h37 (by decide)]
  simp [parseHost, hpre, lastIndexByte_of_not_mem 58 B h58, hun]

/-- Go `parseAuthority` returns a plain host name as the host, without user. -/
theorem parseAuthority_plain (B : GoString) (hB : isHostText B = true) :
    parseAuthority B = .ok (none, B) := by
  have hbyte : ∀ c ∈ B, isHostByte c = true := fun c hc => List.all_eq_true.1 hB c hc
  have h64 : 64 ∉ B := fun hm => (isHostByte_plain 64 (hbyte 64 hm)).2.2.2.2.2.2.1 rfl
  simp [parseAuthority, lastIndexByte_of_not_mem 64 B h64, parseHost_plain B hB]

/-- The bytes of a scheme are no control bytes and none of `#`, `?`. -/
theorem isSchemeText_plain (scheme : GoString) (hs : isSchemeText scheme = true) :
    ∀ c ∈ scheme, ¬ (c < 32) ∧ c ≠ 127 ∧ c ≠ 35 ∧ c ≠ 63 := by
  cases scheme with
  | nil => simp [isSchemeText] at hs
  | cons d ds =>
    simp only [isSchemeText, Bool.and_eq_true] at hs
    obtain ⟨hd, hds⟩ := hs
    intro c hc
    rcases List.mem_cons.1 hc with rfl | hc
    · simp only [isLetter, Bool.or_eq_true, Bool.and_eq_true, decide_eq_true_eq] at hd
      omega
    · have := List.all_eq_true.1 hds c hc
      simp only [isSchemeByte, isLetter, Bool.or_eq_true, Bool.and_eq_true,
        decide_eq_true_eq] at this
      omega

/-- A path byte is no control byte and none of `#`, `%`, `?`. -/
theorem isPathByte_plain (c : Nat) (h : isPathByte c = true) :
    ¬ (c < 32) ∧ c ≠ 127 ∧ c ≠ 35 ∧ c ≠ 37 ∧ c ≠ 63 := by
  simp only [isPathByte, Bool.and_eq_true, Bool.not_eq_true', Bool.or_eq_false_iff,
    decide_eq_false_iff_not, bne_iff_ne, ne_eq] at h
  omega

/-- Go `parse` on `scheme://B/P` for a plain host `B` and a plain path `P`. -/
theorem parse_scheme_host_path (scheme B P : GoString)
    (hs : isSchemeText scheme = true) (hB : isHostText B = true) (hP : isPathText P = true) :
    parse (scheme ++ 58 :: 47 :: 47 :: (B ++ 47 :: P))
      = .ok { Scheme := toLower scheme, Host := B, Path := 47 :: P } := by
  have hsb := isSchemeText_plain scheme hs
  have hBb : ∀ c ∈ B, isHostByte c = true := fun c hc => List.all_eq_true.1 hB c hc
  have hPb : ∀ c ∈ P, isPathByte c = true := fun c hc => List.all_eq_true.1 hP c hc
  -- no control byte
  have hctl : stringContainsCTLByte (scheme ++ 58 :: 47 :: 47 :: (B ++ 47 :: P)) = false := by
    rw [Bool.eq_false_iff]
    intro h
    simp only [stringContainsCTLByte, List.any_eq_true, Bool.or_eq_true,
      decide_eq_true_eq] at h
    obtain ⟨c, hc, hbad⟩ := h
    simp only [List.mem_append, List.mem_cons] at hc
    rcases hc with hc | rfl | rfl | rfl | hc | rfl | hc
    · have := hsb c hc; omega
    · omega
    · omega
    · omega
    · have := isHostByte_plain c (hBb c hc); omega
    · omega
    · have := isPathByte_plain c (hPb c hc); omega
  have hstar : scheme ++ 58 :: 47 :: 47 :: (B ++ 47 :: P) ≠ [42] := by
    intro h
    have := congrArg List.length h
    simp at this
    omega
  have hgs := getScheme_scheme scheme (47 :: 47 :: (B ++ 47 :: P)) hs
  have h63 : 63 ∉ (47 :: 47 :: (B ++ 47 :: P) : GoString) := by
    intro hm
    simp only [List.mem_append, List.mem_cons] at hm
    rcases hm with h | h | h | h | h
    · omega
    · omega
    · have := isHostByte_plain 63 (hBb 63 h); omega
    · omega
    · have := isPathByte_plain 63 (hPb 63 h); omega
  have hcount : countByte 63 (47 :: 47 :: (B ++ 47 :: P)) = 0 :=
    List.count_eq_zero_of_not_mem h63
  have hcut := cut_of_not_mem 63 _ h63
  have hlow : toLower scheme ≠ [] := by
    cases scheme with
    | nil => simp [isSchemeText] at hs
    | cons d ds => simp [toLower]
  have h47 : 47 ∉ B := fun hm => (isHostByte_plain 47 (hBb 47 hm)).2.2.2.2.1 rfl
  have hidx := indexByte_append 47 B P h47
  have hauth := parseAuthority_plain B hB
  have h37 : 37 ∉ (47 :: P : GoString) := by
    intro hm
    rcases List.mem_cons.1 hm with h | h
    · omega
    · have := isPathByte_plain 37 (hPb 37 h); omega
  have hpath : unescape (47 :: P) .encodePath = .ok (47 :: P) := by
    simp [unescape,
      unescapeCheck_plain .encodePath (47 :: P) h37 (fun h => by rcases h with h | h <;> cases h),
      unescapeBuild_plain .encodePath (47 :: P) h37 (by decide)]
  simp [parse, hctl, hstar, hgs, hcount, hcut, hlow, hasPrefix, hasSuffix, List.isPrefixOf,
    hidx, hauth, setPath, hpath]

/-- An instance: the fetcher built for
`s3://b/k`, a bucket in `eu-west-1`. -/
theorem NewS3ObjectFetcher_fails_closed_witness :
    NewS3ObjectFetcher (awsRegion "eu-west-1") (str "s3://b/k")
      = (.returned (some { client := some (.client ⟨"eu-west-1", 0⟩), bucket := str "b",
                           path := str "k", logger := DummyLogger }) none,
         [.loadDefaultConfig .background "us-east-1", .newFromConfig ⟨"us-east-1", 0⟩,
          .getBucketRegion .background (.client ⟨"us-east-1", 0⟩) (str "b"),
          .loadDefaultConfig .background "eu-west-1", .newFromConfig ⟨"eu-west-1", 0⟩]) :=
  (NewS3ObjectFetcher_fails_closed (awsRegion "eu-west-1") (str "s3://b/k")).2.2.2
    ⟨str "b", str "k"⟩ (.client ⟨"eu-west-1", 0⟩) _ (by decide) (by decide)

/-- C2, as amended: for a URI `scheme://B/P` whose scheme is a letter followed
by letters, digits, `+`, `-`, `.`, whose `B` is a plain host name and whose `P`
holds no `?`, `#`, `%` and no control byte, `s3parseUri` succeeds with bucket
`B` and path `P`, every byte of `P` kept. -/
theorem s3parseUri_plain_uri (scheme B P : GoString)
    (hs : isSchemeText scheme = true) (hB : isHostText B = true) (hP : isPathText P = true) :
    s3parseUri (scheme ++ str "://" ++ B ++ str "/" ++ P)
      = .returned (some { Bucket := B, Path := P }) none := by
  have hsb := isSchemeText_plain scheme hs
  have hBb : ∀ c ∈ B, isHostByte c = true := fun c hc => List.all_eq_true.1 hB c hc
  have hPb : ∀ c ∈ P, isPathByte c = true := fun c hc => List.all_eq_true.1 hP c hc
  have hsep : str "://" = [58, 47, 47] := by decide
  have hslash : str "/" = [47] := by decide
  have huri : scheme ++ str "://" ++ B ++ str "/" ++ P
      = scheme ++ 58 :: 47 :: 47 :: (B ++ 47 :: P) := by
    simp [hsep, hslash]
  rw [huri]
  have h35 : 35 ∉ scheme ++ 58 :: 47 :: 47 :: (B ++ 47 :: P) := by
    intro hm
    simp only [List.mem_append, List.mem_cons] at hm
    rcases hm with h | h | h | h | h | h | h
    · have := hsb 35 h; omega
    · omega
    · omega
    · omega
    · have := isHostByte_plain 35 (hBb 35 h); omega
    · omega
    · have := isPathByte_plain 35 (hPb 35 h); omega
  have hparse : url.Parse (scheme ++ 58 :: 47 :: 47 :: (B ++ 47 :: P))
      = (some { Scheme := toLower scheme, Host := B, Path := 47 :: P }, none) := by
    simp [url.Parse, cut_of_not_mem 35 _ h35, parse_scheme_host_path scheme B P hs hB hP]
  rw [(s3parseUri_of_Parse _).1 _ hparse]
  simp [hasPrefix, List.isPrefixOf]

/-- An instance: the example of the specification. -/
theorem s3parseUri_plain_uri_witness :
    s3parseUri (str "s3://my-bucket/a/b/c.txt")
      = .returned (some { Bucket := str "my-bucket", Path := str "a/b/c.txt" }) none :=
  s3parseUri_plain_uri (str "s3") (str "my-bucket") (str "a/b/c.txt")
    (by decide) (by decide) (by decide)

/-- C2, as stated, fails at `s3://b/a%20b`: the escape is decoded, the path is
`a b` and not `a%20b`. -/
theorem s3parseUri_decodes_escapes :
    s3parseUri (str "s3" ++ str "://" ++ str "b" ++ str "/" ++ str "a%20b")
      = .returned (some { Bucket := str "b", Path := str "a b" }) none ∧
    s3parseUri (str "s3" ++ str "://" ++ str "b" ++ str "/" ++ str "a%20b")
      ≠ .returned (some { Bucket := str "b", Path := str "a%20b" }) none := by
  decide

/-- Cutting at `#` keeps a byte that stands before every `#`. -/
theorem cut_fst_append (pre post : GoString) (c : Nat) (hpre : 35 ∉ pre) (hc : c ≠ 35) :
    (cut 35 (pre ++ c :: post)).1 = pre ++ c :: (cut 35 post).1 := by
  induction pre with
  | nil => simp [cut, hc]
  | cons d ds ih =>
    have hd : d ≠ 35 := fun h => hpre (by simp [h])
    have hds : 35 ∉ ds := fun hm => hpre (List.mem_cons_of_mem _ hm)
    simp [cut, hd, ih hds]

/-- C6, as amended: a URI with a control byte before its first `#`, so in
particular in its authority, yields the parse error "invalid control
character" and no location; and whenever `s3parseUri` returns an error it
returns no location. -/
theorem s3parseUri_errors (uri : GoString) :
    (∀ pre c post, uri = pre ++ c :: post → 35 ∉ pre → (c < 32 ∨ c = 127) →
      ∃ u, s3parseUri uri
        = .returned none (some (.urlError "parse" u .invalidControlCharacter))) ∧
    (∀ r e, s3parseUri uri = .returned r (some e) → r = none) := by
  constructor
  · rintro pre c post rfl hpre hc
    have hc35 : c ≠ 35 := by omega
    have hcut := cut_fst_append pre post c hpre hc35
    have hctl : stringContainsCTLByte (cut 35 (pre ++ c :: post)).1 = true := by
      rw [hcut]
      simp only [stringContainsCTLByte, List.any_append, List.any_cons, Bool.or_eq_true,
        decide_eq_true_eq]
      exact Or.inr (Or.inl hc)
    have hparse : parse (cut 35 (pre ++ c :: post)).1 = .error .invalidControlCharacter := by
      simp [parse, hctl]
    refine ⟨(cut 35 (pre ++ c :: post)).1, ?_⟩
    apply (s3parseUri_of_Parse _).2
    simp [url.Parse, hparse]
  · intro r e h
    rcases s3parseUri_closed uri with ⟨p, hp⟩ | ⟨e2, he2⟩
    · rw [hp] at h
      cases h
    · rw [he2] at h
      cases h
      rfl

/-- An instance: a control byte in the authority. -/
theorem s3parseUri_errors_witness :
    ∃ u, s3parseUri (str "s3://b\x01c/key")
      = .returned none (some (.urlError "parse" u .invalidControlCharacter)) :=
  (s3parseUri_errors (str "s3://b\x01c/key")).1 (str "s3://b") 1 (str "c/key")
    (by decide) (by decide) (by decide)

/-- C6, as stated, fails at the empty string: `s3parseUri` returns no error but
the location with an empty bucket and an empty path. -/
theorem s3parseUri_empty_string :
    s3parseUri (str "") = .returned (some { Bucket := [], Path := [] }) none := by
  decide

/-- C7, as amended: when `s3parseUri` succeeds, the bucket is the host of the
URL as `url.Parse` returns it, and the path is the path of the URL without its
first byte when that is a `/`, and unchanged otherwise; so the path begins
with `/` exactly when the path of the URL begins with `//`. -/
theorem s3parseUri_location (uri : GoString) (p : s3ParsedUri)
    (h : s3parseUri uri = .returned (some p) none) :
    ∃ u, url.Parse uri = (some u, none) ∧ p.Bucket = u.Host ∧
      (hasPrefix u.Path (str "/") = true → u.Path = str "/" ++ p.Path) ∧
      (hasPrefix u.Path (str "/") = false → p.Path = u.Path) ∧
      (hasPrefix p.Path (str "/") = true ↔ hasPrefix u.Path (str "//") = true) := by
  have hslash : str "/" = [47] := by decide
  have hslash2 : str "//" = [47, 47] := by decide
  rw [hslash, hslash2]
  rcases url_Parse_closed uri with ⟨u, hu⟩ | ⟨e, he⟩
  · refine ⟨u, hu, ?_⟩
    rw [(s3parseUri_of_Parse uri).1 u hu] at h
    simp only [Outcome.returned.injEq, Option.some.injEq, and_true] at h
    subst h
    rcases hpath : u.Path with _ | ⟨c, cs⟩
    · simp [hasPrefix, List.isPrefixOf]
    · by_cases hc : c = 47
      · subst hc
        cases cs with
        | nil => simp [hasPrefix, List.isPrefixOf]
        | cons d ds => simp [hasPrefix, List.isPrefixOf]
      · have hc2 : ¬ 47 = c := fun h => hc h.symm
        simp [hasPrefix, List.isPrefixOf, hc, hc2]
  · rw [(s3parseUri_of_Parse uri).2 e he] at h
    cases h

/-- An instance: `s3://b//a`, whose URL path is `//a`. -/
theorem s3parseUri_location_witness :
    ∃ u, url.Parse (str "s3://b//a") = (some u, none) ∧ str "b" = u.Host ∧
      (hasPrefix u.Path (str "/") = true → u.Path = str "/" ++ str "/a") ∧
      (hasPrefix u.Path (str "/") = false → str "/a" = u.Path) ∧
      (hasPrefix (str "/a") (str "/") = true ↔ hasPrefix u.Path (str "//") = true) :=
  s3parseUri_location (str "s3://b//a") { Bucket := str "b", Path := str "/a" } (by decide)

/-- C7, as stated, fails at `s3://b//a`: `s3parseUri` succeeds and the path it
returns, `/a`, begins with `/`. -/
theorem s3parseUri_double_slash :
    s3parseUri (str "s3://b//a")
      = .returned (some { Bucket := str "b", Path := str "/a" }) none ∧
    hasPrefix (str "/a") (str "/") = true := by
  decide

/-- C10: the range that `Fetch` sends is the one `buildRange` builds: none
without offsets, the open range from the start with a start only, the closed
range from start through end with both, and with an end only the one range
that the chosen end-only behaviour defines. -/
theorem Fetch_range (endOnly : Int → Option String)
    (w : World) (s : S3ObjectFetcher) (client : S3Getter) (ctx : Context)
    (hclient : s.client = some client) :
    (s.Fetch (buildRange endOnly) w ctx none none).events.filter Event.isGetObject
      = [.getObject client ctx
          { Bucket := some s.bucket, Key := some s.path, Range := none }] ∧
    (∀ a : Int,
      (s.Fetch (buildRange endOnly) w ctx (some a) none).events.filter Event.isGetObject
        = [.getObject client ctx
            { Bucket := some s.bucket, Key := some s.path,
              Range := some ("bytes=" ++ toString a ++ "-") }]) ∧
    (∀ a b : Int,
      (s.Fetch (buildRange endOnly) w ctx (some a) (some b)).events.filter Event.isGetObject
        = [.getObject client ctx
            { Bucket := some s.bucket, Key := some s.path,
              Range := some ("bytes=" ++ toString a ++ "-" ++ toString b) }]) ∧
    (∀ e : Int,
      (s.Fetch (buildRange endOnly) w ctx none (some e)).events.filter Event.isGetObject
        = [.getObject client ctx
            { Bucket := some s.bucket, Key := some s.path, Range := endOnly e }]) := by
  refine ⟨?_, ?_, ?_, ?_⟩
  · exact (Fetch_requests (buildRange endOnly) w s client ctx none none hclient).1
  · intro a
    exact (Fetch_requests (buildRange endOnly) w s client ctx (some a) none hclient).1
  · intro a b
    exact (Fetch_requests (buildRange endOnly) w s client ctx (some a) (some b) hclient).1
  · intro e
    exact (Fetch_requests (buildRange endOnly) w s client ctx none (some e) hclient).1

/-- An instance: the offsets 10 and 20 send the range of the
bytes 10 through 20. -/
theorem Fetch_range_witness :
    (sampleFetcher.Fetch noRange worldOk .background (some 10) (some 20)).events.filter
        Event.isGetObject
      = [.getObject (.client ⟨"eu-west-1", 0⟩) .background
          { Bucket := some (str "b"), Key := some (str "k"), Range := some "bytes=10-20" }] :=
  (Fetch_range (fun _ => none) worldOk sampleFetcher (.client ⟨"eu-west-1", 0⟩) .background
    rfl).2.2.1 10 20

end Remote
